import Mathlib

/-!
Verification of the toll-network distance/rate pipeline and the
time-coverage validator, as implemented in
`submissions/python_task_2.py` and `submissions/python_task_1.py`.

The pandas DataFrames are embedded as Lean lists of records; the dense
distance matrix is a total function `ℤ → ℤ → ℚ` together with its index
(the sorted list of points); floating-point distances are modelled as
exact rationals.
-/

/-- A row of the long-format table: columns `id_start`, `id_end`, `distance`. -/
structure Edge where
  id_start : ℤ
  id_end : ℤ
  distance : ℚ
  deriving DecidableEq

/-- Pointwise update of one matrix cell, modelling `distance_matrix.at[a, b] = v`. -/
def matUpdate (M : ℤ → ℤ → ℚ) (a b : ℤ) (v : ℚ) : ℤ → ℤ → ℚ :=
  fun x y => if x = a ∧ y = b then v else M x y

/-- The line `unique_ids = sorted(set(...) | set(...))`: the ascending list of
the distinct ids occurring in the edge list. -/
def uniqueIds (df : List Edge) : List ℤ :=
  List.insertionSort (· ≤ ·) ((df.map (·.id_start) ++ df.map (·.id_end)).dedup)

/-- The first loop of `calculate_distance_matrix`: for every row,
`distance_matrix.at[id_start, id_end] += distance` (directed accumulation). -/
def accumulateEdges (df : List Edge) (M : ℤ → ℤ → ℚ) : ℤ → ℤ → ℚ :=
  df.foldl (fun M r => matUpdate M r.id_start r.id_end (M r.id_start r.id_end + r.distance)) M

/-- One iteration of the innermost body of the triple loop: if
`distance_matrix.at[i, k] > 0 and distance_matrix.at[k, j] > 0` and `i != j`,
then `distance_matrix.at[i, j] += distance_matrix.at[i, k] + distance_matrix.at[k, j]`. -/
def propagateStep (M : ℤ → ℤ → ℚ) (k i j : ℤ) : ℤ → ℤ → ℚ :=
  if 0 < M i k ∧ 0 < M k j ∧ i ≠ j then matUpdate M i j (M i j + (M i k + M k j)) else M

/-- The triple loop `for k: for i: for j:` of `calculate_distance_matrix`,
reading the partially updated matrix exactly as the Python loop does. -/
def propagateRoutes (ids : List ℤ) (M : ℤ → ℤ → ℚ) : ℤ → ℤ → ℚ :=
  ids.foldl (fun M k => ids.foldl (fun M i => ids.foldl (fun M j => propagateStep M k i j) M) M) M

/-- A dense distance matrix: its index (= columns) and its cell contents. -/
structure DistanceMatrix where
  points : List ℤ
  dist : ℤ → ℤ → ℚ

/-- The function `calculate_distance_matrix` from `python_task_2.py`: initialise with zeros,
accumulate the directed edges, run the triple propagation loop, zero the
diagonal, and finally symmetrise by `distance_matrix + distance_matrix.T`. -/
def calculate_distance_matrix (df : List Edge) : DistanceMatrix :=
  let ids := uniqueIds df
  let acc := accumulateEdges df (fun _ _ => 0)
  let prop := propagateRoutes ids acc
  let diag0 : ℤ → ℤ → ℚ := fun x y => if x = y then 0 else prop x y
  ⟨ids, fun x y => diag0 x y + diag0 y x⟩

/-- The inner loop of `unroll_distance_matrix`: `for j, end_id in enumerate(columns)`,
appending a row unless the positional indices `i` and `j` coincide.  The counter `j`
starts at the given offset. -/
def unrollInner (m : DistanceMatrix) (s : ℤ) (i : ℕ) : ℕ → List ℤ → List Edge
  | _, [] => []
  | j, e :: es => (if i = j then [] else [⟨s, e, m.dist s e⟩]) ++ unrollInner m s i (j + 1) es

/-- The outer loop of `unroll_distance_matrix`: `for i, start_id in enumerate(index)`. -/
def unrollOuter (m : DistanceMatrix) : ℕ → List ℤ → List Edge
  | _, [] => []
  | i, s :: ss => unrollInner m s i 0 m.points ++ unrollOuter m (i + 1) ss

/-- The function `unroll_distance_matrix` from `python_task_2.py`: emit one long-format row per
ordered pair of positions `(i, j)` of the matrix index with `i ≠ j`. -/
def unroll_distance_matrix (m : DistanceMatrix) : List Edge :=
  unrollOuter m 0 m.points

/-- The function `find_ids_within_ten_percentage_threshold` from `python_task_2.py`.
When the reference id matches no row, the pandas mean of the empty series is NaN,
every comparison against the NaN bounds is False, and the result is empty; the
first branch models exactly that observable behaviour. -/
def find_ids_within_ten_percentage_threshold (df : List Edge) (reference_id : ℤ) : List ℤ :=
  let reference_rows := df.filter (fun r => decide (r.id_start = reference_id))
  if reference_rows.isEmpty then [] else
  let reference_avg_distance := (reference_rows.map (·.distance)).sum / (reference_rows.length : ℚ)
  let lower_threshold := reference_avg_distance - 0.1 * reference_avg_distance
  let upper_threshold := reference_avg_distance + 0.1 * reference_avg_distance
  let within := (df.filter (fun r =>
    decide (lower_threshold ≤ r.distance) && decide (r.distance ≤ upper_threshold))).map (·.id_start)
  List.insertionSort (· ≤ ·) within.dedup

/-- A DataFrame row as pandas sees it inside `calculate_toll_rate`: an ordered
association of column names to (rational) values. -/
abbrev Row : Type := List (String × ℚ)

/-- Column access `row[c]`: the first value stored under column `c`, if any. -/
def getCol (row : Row) (c : String) : Option ℚ :=
  (row.find? (fun p => p.1 == c)).map (·.2)

/-- Column assignment `df[c] = v`: overwrite the column if it exists, else append it. -/
def setCol (row : Row) (c : String) (v : ℚ) : Row :=
  if row.any (fun p => p.1 == c) then row.map (fun p => if p.1 == c then (c, v) else p)
  else row ++ [(c, v)]

/-- Column removal `df.drop(c, axis=1)`: remove the column named `c`. -/
def dropCol (row : Row) (c : String) : Row :=
  row.filter (fun p => p.1 != c)

/-- The row-wise effect of `calculate_toll_rate`: add the five vehicle-class
columns as fixed multiples of `distance`, then drop the `distance` column.
(The Python version assigns whole columns; on a frame all of whose rows carry a
`distance` column this is the same row-wise map.) -/
def tollRateRow (row : Row) : Row :=
  let d := (getCol row "distance").getD 0
  dropCol (setCol (setCol (setCol (setCol (setCol row
    "moto" (0.8 * d)) "car" (1.2 * d)) "rv" (1.5 * d)) "bus" (2.2 * d)) "truck" (3.6 * d))
    "distance"

/-- The function `calculate_toll_rate` from `python_task_2.py`.  The column
assignments and the `inplace=True` drop mutate the frame held by the caller and
the function returns that same frame, so the call is modelled as yielding the
pair (returned frame, frame held by the caller after the call) — and the two
components coincide. -/
def calculate_toll_rate (df : List Row) : List Row × List Row :=
  let out := df.map tollRateRow
  (out, out)

/-- Modelled from the spec: rounding "to a consistent precision (1 decimal place)",
the operation the claim asserts `calculate_toll_rate` applies to each rate. -/
def specRound1 (x : ℚ) : ℚ :=
  (round (10 * x) : ℤ) / 10

/-- A raw row of the interval log consumed by `time_check` in `python_task_1.py`. -/
structure IntervalRow where
  id : ℤ
  id_2 : ℤ
  startDay : String
  startTime : String
  endDay : String
  endTime : String
  deriving DecidableEq

/-- An interval-log row after `time_check` has added its two datetime columns.
Instants are modelled as seconds; coercing `pd.to_datetime` yields
`none` (NaT) when the day/time fields fail to parse. -/
structure IntervalRowAfter where
  row : IntervalRow
  start_datetime : Option ℕ
  end_datetime : Option ℕ
  deriving DecidableEq

/-- The grouping key `(id, id_2)` of an interval-log row. -/
def keyOf (r : IntervalRowAfter) : ℤ × ℤ :=
  (r.row.id, r.row.id_2)

/-- Lexicographic order on grouping keys, the order the pandas `groupby` sorts by. -/
def lexKeyLe (a b : ℤ × ℤ) : Prop :=
  a.1 < b.1 ∨ (a.1 = b.1 ∧ a.2 ≤ b.2)

instance : DecidableRel lexKeyLe := fun a b => by
  unfold lexKeyLe
  infer_instance

/-- Seconds in a day; `86399` is the time-of-day `23:59:59`. -/
def secondsPerDay : ℕ := 86400

/-- The span `pd.Timedelta(days=7)` in seconds. -/
def sevenDays : ℤ := 604800

/-- The body of the `groupby(...).apply(lambda group: ...)` in `time_check`:
the pandas `min` and `max` skip NaT entries, an aggregate over only-NaT entries is NaT,
and every comparison involving NaT is False — hence the `match` fallbacks. -/
def groupVerdict (g : List IntervalRowAfter) : Bool :=
  let starts : List ℕ := g.filterMap (·.start_datetime)
  let ends : List ℕ := g.filterMap (·.end_datetime)
  (match ends.max?, starts.min? with
   | some M, some m => decide (sevenDays ≤ (M : ℤ) - (m : ℤ))
   | _, _ => false) &&
  (match (starts.map (· % secondsPerDay)).min? with
   | some t => decide (t = 0)
   | none => false) &&
  (match (ends.map (· % secondsPerDay)).max? with
   | some t => decide (t = secondsPerDay - 1)
   | none => false)

/-- The two datetime-column assignments at the top of `time_check`: the input
frame extended with the parsed `start_datetime` and `end_datetime` columns.
The parser stands for the external coercing `pd.to_datetime`, a function from
the day and time strings to an optional instant. -/
def dfAfter (parse : String → String → Option ℕ) (df : List IntervalRow) :
    List IntervalRowAfter :=
  df.map (fun r => ⟨r, parse r.startDay r.startTime, parse r.endDay r.endTime⟩)

/-- The group of rows sharing the key `k`, as formed by the `groupby` on the
`id` and `id_2` columns. -/
def groupRows (parse : String → String → Option ℕ) (df : List IntervalRow) (k : ℤ × ℤ) :
    List IntervalRowAfter :=
  (dfAfter parse df).filter (fun r => decide (keyOf r = k))

/-- The function `time_check` from `python_task_1.py`.  The two datetime columns
are added to the frame held by the caller in place, so the call is modelled as
yielding the pair (boolean series keyed by `(id, id_2)` with keys in the sorted
order `groupby` produces, frame held by the caller after the call). -/
def time_check (parse : String → String → Option ℕ) (df : List IntervalRow) :
    List ((ℤ × ℤ) × Bool) × List IntervalRowAfter :=
  let keys := List.insertionSort lexKeyLe ((dfAfter parse df).map keyOf).dedup
  (keys.map (fun k => (k, groupVerdict (groupRows parse df k))), dfAfter parse df)

/-- Series element access into the boolean series returned by `time_check`. -/
def seriesGet (s : List ((ℤ × ℤ) × Bool)) (k : ℤ × ℤ) : Option Bool :=
  (s.find? (fun p => decide (p.1 = k))).map (·.2)

/-- The end-to-end example edge set of the spec: EdgeSet = [(1,2,10),(2,3,15)]. -/
def exEdges : List Edge := [⟨1, 2, 10⟩, ⟨2, 3, 15⟩]

set_option maxRecDepth 8000

/-- The two-point matrix used to witness the unroll contract. -/
def mtx0 : DistanceMatrix := ⟨[1, 2], fun _ _ => 0⟩

/-- The reference average distance of the threshold filter: the mean of the
`distance` column over the rows whose `id_start` equals the reference id. -/
def refMean (df : List Edge) (reference_id : ℤ) : ℚ :=
  ((df.filter (fun r => decide (r.id_start = reference_id))).map (·.distance)).sum /
    ((df.filter (fun r => decide (r.id_start = reference_id))).length : ℚ)

/-- The long-format rows used to witness the threshold-filter contract. -/
def exRows : List Edge := [⟨1, 2, 10⟩, ⟨3, 1, 10⟩]

/-- A concrete unrolled row with distance 1/4, used for the toll-rate claims. -/
def exTollRow : Row := [("id_start", 1), ("id_end", 2), ("distance", 1 / 4)]

/-- The concrete caller frame used for the frame-effect claim. -/
def exTollFrame : List Row := [[("id_start", 1), ("id_end", 2), ("distance", 10)]]

/-- A concrete stand-in for the coercing `pd.to_datetime`, defined on exactly
the two well-formed day/time pairs used by the witnesses. -/
def parseEx : String → String → Option ℕ := fun d t =>
  if d = "2023-01-01" && t = "00:00:00" then some 0
  else if d = "2023-01-08" && t = "23:59:59" then some 691199
  else none

/-- An interval record spanning a full week from midnight to 23:59:59. -/
def goodRow : IntervalRow := ⟨1, 1, "2023-01-01", "00:00:00", "2023-01-08", "23:59:59"⟩

/-- An interval record with the same key whose fields do not parse. -/
def badRow : IntervalRow := ⟨1, 1, "garbage", "x", "garbage", "x"⟩

/-- The fully-unparsed record used to witness the absorption of parse failures. -/
def noneRow : IntervalRowAfter := ⟨badRow, none, none⟩

/-! ### Helper lemmas about column access on rows -/

theorem find?_map_overwrite (row : Row) (c : String) (v : ℚ)
    (h : row.any (fun p => p.1 == c) = true) :
    List.find? (fun p => p.1 == c) (row.map (fun p => if p.1 == c then (c, v) else p))
      = some (c, v) := by
  induction row with
  | nil => simp at h
  | cons p ps ih =>
    rw [List.map_cons]
    by_cases hp : (p.1 == c) = true
    · rw [if_pos hp, List.find?_cons_of_pos (p := fun q : String × ℚ => q.1 == c) _ (by simp)]
    · rw [if_neg hp, List.find?_cons_of_neg (p := fun q : String × ℚ => q.1 == c) _ hp]
      apply ih
      simp only [List.any_cons, Bool.or_eq_true] at h
      exact h.resolve_left hp

theorem getCol_setCol_self (row : Row) (c : String) (v : ℚ) :
    getCol (setCol row c v) c = some v := by
  unfold getCol setCol
  split
  · rename_i h
    rw [find?_map_overwrite row c v h]
    rfl
  · rename_i h
    have hnone : List.find? (fun p => p.1 == c) row = none :=
      List.find?_eq_none.mpr (fun x hx hc =>
        h (List.any_eq_true.mpr ⟨x, hx, hc⟩))
    rw [List.find?_append, hnone,
      List.find?_cons_of_pos (p := fun q : String × ℚ => q.1 == c) _ (by simp)]
    rfl

theorem find?_map_preserve (row : Row) (c c' : String) (v : ℚ) (hne : c' ≠ c) :
    List.find? (fun p => p.1 == c') (row.map (fun p => if p.1 == c then (c, v) else p))
      = List.find? (fun p => p.1 == c') row := by
  have hcc : ((c : String) == c') = false := beq_eq_false_iff_ne.mpr (fun h => hne h.symm)
  induction row with
  | nil => rfl
  | cons p ps ih =>
    rw [List.map_cons]
    by_cases hp : (p.1 == c) = true
    · have hp1 : p.1 = c := by simpa using hp
      have h2 : (p.1 == c') = false := by rw [hp1]; exact hcc
      rw [if_pos hp, List.find?_cons_of_neg (p := fun q : String × ℚ => q.1 == c') _ (by simp [hcc]),
        List.find?_cons_of_neg (p := fun q : String × ℚ => q.1 == c') _ (by simp [h2]), ih]
    · rw [if_neg hp]
      by_cases hq : (p.1 == c') = true
      · rw [List.find?_cons_of_pos (p := fun q : String × ℚ => q.1 == c') _ hq,
          List.find?_cons_of_pos (p := fun q : String × ℚ => q.1 == c') _ hq]
      · rw [List.find?_cons_of_neg (p := fun q : String × ℚ => q.1 == c') _ hq,
          List.find?_cons_of_neg (p := fun q : String × ℚ => q.1 == c') _ hq, ih]

theorem getCol_setCol_ne (row : Row) (c c' : String) (v : ℚ) (hne : c' ≠ c) :
    getCol (setCol row c v) c' = getCol row c' := by
  unfold getCol setCol
  split
  · rw [find?_map_preserve row c c' v hne]
  · have h2 : List.find? (fun p => p.1 == c') [((c, v) : String × ℚ)] = none := by
      rw [List.find?_cons_of_neg (p := fun q : String × ℚ => q.1 == c') _
        (by simp; exact fun h => hne h.symm)]
      rfl
    rw [List.find?_append, h2, Option.or_none]

theorem getCol_dropCol_self (row : Row) (c : String) :
    getCol (dropCol row c) c = none := by
  unfold getCol dropCol
  rw [List.find?_eq_none.mpr]
  · rfl
  · intro x hx
    have := (List.mem_filter.mp hx).2
    simp only [bne_iff_ne, ne_eq, decide_eq_true_eq] at this ⊢
    simpa using this

theorem getCol_dropCol_ne (row : Row) (c c' : String) (hne : c' ≠ c) :
    getCol (dropCol row c) c' = getCol row c' := by
  unfold getCol dropCol
  induction row with
  | nil => rfl
  | cons p ps ih =>
    rw [List.filter_cons]
    by_cases hp : (p.1 != c) = true
    · rw [if_pos hp]
      by_cases hq : (p.1 == c') = true
      · rw [List.find?_cons_of_pos (p := fun q : String × ℚ => q.1 == c') _ hq,
          List.find?_cons_of_pos (p := fun q : String × ℚ => q.1 == c') _ hq]
      · rw [List.find?_cons_of_neg (p := fun q : String × ℚ => q.1 == c') _ hq,
          List.find?_cons_of_neg (p := fun q : String × ℚ => q.1 == c') _ hq, ih]
    · have hp1 : p.1 = c := by simpa using hp
      have h2 : (p.1 == c') = false := by
        rw [hp1]; exact beq_eq_false_iff_ne.mpr (fun h => hne h.symm)
      rw [if_neg hp, List.find?_cons_of_neg (p := fun q : String × ℚ => q.1 == c') _ (by simp [h2]), ih]

/-- Row-level contract of the toll-rate stage: on a row carrying a distance `d`,
the five rate columns hold the exact (unrounded) multiples of `d` and the
distance column is gone. -/
theorem tollRateRow_spec (row : Row) (d : ℚ) (h : getCol row "distance" = some d) :
    getCol (tollRateRow row) "moto" = some (0.8 * d) ∧
    getCol (tollRateRow row) "car" = some (1.2 * d) ∧
    getCol (tollRateRow row) "rv" = some (1.5 * d) ∧
    getCol (tollRateRow row) "bus" = some (2.2 * d) ∧
    getCol (tollRateRow row) "truck" = some (3.6 * d) ∧
    getCol (tollRateRow row) "distance" = none := by
  unfold tollRateRow
  rw [h]
  simp only [Option.getD_some]
  refine ⟨?_, ?_, ?_, ?_, ?_, ?_⟩
  · rw [getCol_dropCol_ne _ _ _ (by decide), getCol_setCol_ne _ _ _ _ (by decide),
      getCol_setCol_ne _ _ _ _ (by decide), getCol_setCol_ne _ _ _ _ (by decide),
      getCol_setCol_ne _ _ _ _ (by decide), getCol_setCol_self]
  · rw [getCol_dropCol_ne _ _ _ (by decide), getCol_setCol_ne _ _ _ _ (by decide),
      getCol_setCol_ne _ _ _ _ (by decide), getCol_setCol_ne _ _ _ _ (by decide),
      getCol_setCol_self]
  · rw [getCol_dropCol_ne _ _ _ (by decide), getCol_setCol_ne _ _ _ _ (by decide),
      getCol_setCol_ne _ _ _ _ (by decide), getCol_setCol_self]
  · rw [getCol_dropCol_ne _ _ _ (by decide), getCol_setCol_ne _ _ _ _ (by decide),
      getCol_setCol_self]
  · rw [getCol_dropCol_ne _ _ _ (by decide), getCol_setCol_self]
  · exact getCol_dropCol_self _ _

/-! ### Helper lemmas about the matrix unrolling loops -/

theorem unrollInner_eq_filter (m : DistanceMatrix) (s : ℤ) (i : ℕ) (l : List ℤ) :
    ∀ j : ℕ, (∀ k, k < l.length → (j + k = i ↔ l.getD k 0 = s)) →
      unrollInner m s i j l
        = (l.filter (fun e => decide (e ≠ s))).map (fun e => ⟨s, e, m.dist s e⟩) := by
  induction l with
  | nil => intro j _; rfl
  | cons e es ih =>
    intro j h
    have h0 : j = i ↔ e = s := by simpa using h 0 (by simp)
    have hrec : ∀ k, k < es.length → (j + 1 + k = i ↔ es.getD k 0 = s) := by
      intro k hk
      have := h (k + 1) (by simpa using Nat.succ_lt_succ hk)
      rw [List.getD_cons_succ] at this
      rw [show j + 1 + k = j + (k + 1) by omega]
      exact this
    rw [unrollInner, List.filter_cons]
    by_cases hij : i = j
    · have hes : e = s := h0.mp hij.symm
      rw [if_pos hij, if_neg (by simp [hes])]
      simpa using ih (j + 1) hrec
    · have hes : e ≠ s := fun hc => hij (h0.mpr hc).symm
      rw [if_neg hij, if_pos (by simpa using hes), List.map_cons]
      simpa using ih (j + 1) hrec

theorem nodup_getD_inj {l : List ℤ} (hnd : l.Nodup) {a b : ℕ}
    (ha : a < l.length) (hb : b < l.length) (h : l.getD a 0 = l.getD b 0) : a = b := by
  rw [List.getD_eq_get l 0 ha, List.getD_eq_get l 0 hb] at h
  have := (hnd.get_inj_iff).mp h
  exact congrArg Fin.val this

theorem unrollOuter_eq_bind (m : DistanceMatrix) (hnd : m.points.Nodup) (l : List ℤ) :
    ∀ i : ℕ, (∀ k, k < l.length → m.points.getD (i + k) 0 = l.getD k 0) →
      i + l.length = m.points.length →
      unrollOuter m i l
        = l.flatMap (fun s =>
            (m.points.filter (fun e => decide (e ≠ s))).map (fun e => ⟨s, e, m.dist s e⟩)) := by
  induction l with
  | nil => intro i _ _; rfl
  | cons s ss ih =>
    intro i hl hlen
    have hi : i < m.points.length := by
      simp only [List.length_cons] at hlen
      omega
    have hs : m.points.getD i 0 = s := by simpa using hl 0 (by simp)
    have hinner : ∀ k, k < m.points.length → (0 + k = i ↔ m.points.getD k 0 = s) := by
      intro k hk
      rw [Nat.zero_add]
      constructor
      · rintro rfl
        exact hs
      · intro hks
        exact nodup_getD_inj hnd hk hi (by rw [hks, hs])
    rw [unrollOuter, List.flatMap_cons,
      unrollInner_eq_filter m s i m.points 0 hinner,
      ih (i + 1) (fun k hk => by
        have := hl (k + 1) (by simpa using Nat.succ_lt_succ hk)
        rw [List.getD_cons_succ] at this
        rw [show i + 1 + k = i + (k + 1) by omega]
        exact this)
      (by simp only [List.length_cons] at hlen; omega)]

/-- Characterisation of `unroll_distance_matrix` over a duplicate-free index:
one block of rows per start point, each block listing all other points in index
order. -/
theorem unroll_eq_bind (m : DistanceMatrix) (hnd : m.points.Nodup) :
    unroll_distance_matrix m
      = m.points.flatMap (fun s =>
          (m.points.filter (fun e => decide (e ≠ s))).map (fun e => ⟨s, e, m.dist s e⟩)) := by
  exact unrollOuter_eq_bind m hnd m.points 0 (fun k _ => by rw [Nat.zero_add]) (by simp)

theorem length_filter_ne {l : List ℤ} {s : ℤ} (hnd : l.Nodup) (hs : s ∈ l) :
    (l.filter (fun e => decide (e ≠ s))).length = l.length - 1 := by
  induction l with
  | nil => cases hs
  | cons a as ih =>
    have hcons := List.nodup_cons.mp hnd
    rw [List.filter_cons]
    by_cases has : a = s
    · subst has
      rw [if_neg (by simp)]
      have hfa : as.filter (fun e => decide (e ≠ a)) = as :=
        List.filter_eq_self.mpr (fun x hx => by
          have hxa : x ≠ a := fun hc => hcons.1 (hc ▸ hx)
          simpa using hxa)
      rw [hfa, List.length_cons]
      omega
    · have hmem : s ∈ as := by
        rcases List.mem_cons.mp hs with h | h
        · exact absurd h.symm has
        · exact h
      rw [if_pos (by simpa using has), List.length_cons, ih hcons.2 hmem, List.length_cons]
      have hp : 0 < as.length := List.length_pos.mpr (List.ne_nil_of_mem hmem)
      omega

/-! ### Helper lemmas about the boolean series of `time_check` -/

theorem seriesGet_map (f : ℤ × ℤ → Bool) (ks : List (ℤ × ℤ)) (k : ℤ × ℤ)
    (hnd : ks.Nodup) (hk : k ∈ ks) :
    seriesGet (ks.map (fun k => (k, f k))) k = some (f k) := by
  induction ks with
  | nil => cases hk
  | cons a as ih =>
    have hcons := List.nodup_cons.mp hnd
    rw [List.map_cons]
    by_cases hak : a = k
    · subst hak
      unfold seriesGet
      rw [List.find?_cons_of_pos (p := fun q : (ℤ × ℤ) × Bool => decide (q.1 = a)) _ (by simp)]
      rfl
    · have step : List.find? (fun q : (ℤ × ℤ) × Bool => decide (q.1 = k))
          ((a, f a) :: as.map (fun k => (k, f k)))
          = List.find? (fun q : (ℤ × ℤ) × Bool => decide (q.1 = k))
              (as.map (fun k => (k, f k))) :=
        List.find?_cons_of_neg _ (by simpa using hak)
      unfold seriesGet at ih ⊢
      rw [step]
      exact ih hcons.2 ((List.mem_cons.mp hk).resolve_left (fun h => hak h.symm))

/-- Unfolding of the per-group verdict into the three conditions of the lambda
inside the `groupby(...).apply(...)`. -/
theorem groupVerdict_eq_true (g : List IntervalRowAfter) :
    groupVerdict g = true ↔
      ((∃ m M, (g.filterMap (·.start_datetime)).min? = some m ∧
               (g.filterMap (·.end_datetime)).max? = some M ∧
               sevenDays ≤ (M : ℤ) - (m : ℤ)) ∧
       ((g.filterMap (·.start_datetime)).map (· % secondsPerDay)).min? = some 0 ∧
       ((g.filterMap (·.end_datetime)).map (· % secondsPerDay)).max? = some (secondsPerDay - 1)) := by
  unfold groupVerdict
  rcases hM : (g.filterMap (·.end_datetime)).max? with _ | M <;>
    rcases hm : (g.filterMap (·.start_datetime)).min? with _ | m <;>
    rcases ht : ((g.filterMap (·.start_datetime)).map (· % secondsPerDay)).min? with _ | t <;>
    rcases hu : ((g.filterMap (·.end_datetime)).map (· % secondsPerDay)).max? with _ | u <;>
    simp [hM, hm, ht, hu, Bool.and_eq_true, decide_eq_true_eq, and_assoc]

/-! ### Claim theorems -/

/-- C1 counterexample: on the EdgeSet [(1,2,10),(2,3,15)] the triple loop of
`calculate_distance_matrix` does propagate through the intermediate point 2,
so matrix[1][3] is 25, not 0 as the claim states. -/
theorem c1_counterexample :
    (calculate_distance_matrix exEdges).dist 1 3 = 25 ∧
    ¬ (calculate_distance_matrix exEdges).dist 1 3 = 0 := by
  constructor <;>
    norm_num [exEdges, calculate_distance_matrix, uniqueIds, accumulateEdges,
      propagateRoutes, propagateStep, matUpdate, List.insertionSort, List.orderedInsert,
      List.dedup_cons_of_mem, List.dedup_cons_of_not_mem]

/-- C1 (amended): for the EdgeSet [(1,2,10),(2,3,15)], `calculate_distance_matrix`
returns matrix[1][2]=matrix[2][1]=10, matrix[2][3]=matrix[3][2]=15, and
matrix[1][3]=matrix[3][1]=25: the distance between the points connected only
through the intermediate point 2 IS propagated (sum of the two legs). -/
theorem c1_amended :
    (calculate_distance_matrix exEdges).dist 1 2 = 10 ∧
    (calculate_distance_matrix exEdges).dist 2 1 = 10 ∧
    (calculate_distance_matrix exEdges).dist 2 3 = 15 ∧
    (calculate_distance_matrix exEdges).dist 3 2 = 15 ∧
    (calculate_distance_matrix exEdges).dist 1 3 = 25 ∧
    (calculate_distance_matrix exEdges).dist 3 1 = 25 := by
  refine ⟨?_, ?_, ?_, ?_, ?_, ?_⟩ <;>
    norm_num [exEdges, calculate_distance_matrix, uniqueIds, accumulateEdges,
      propagateRoutes, propagateStep, matUpdate, List.insertionSort, List.orderedInsert,
      List.dedup_cons_of_mem, List.dedup_cons_of_not_mem]

/-- C2: for every EdgeSet whose distances are all non-negative, the matrix
returned by `calculate_distance_matrix` is symmetric and zero-diagonal.
(The final symmetrisation `M + M.T` after zeroing the diagonal yields both
properties by construction.) -/
theorem c2_symmetric_zero_diagonal (df : List Edge)
    (h : ∀ e ∈ df, 0 ≤ e.distance) :
    (∀ a b, (calculate_distance_matrix df).dist a b = (calculate_distance_matrix df).dist b a) ∧
    (∀ a, (calculate_distance_matrix df).dist a a = 0) := by
  constructor
  · intro a b
    simp only [calculate_distance_matrix]
    exact add_comm _ _
  · intro a
    simp [calculate_distance_matrix]

/-- C2 witness: the invariants instantiated on the concrete example EdgeSet. -/
theorem c2_symmetric_zero_diagonal_witness :
    (calculate_distance_matrix exEdges).dist 1 3 = (calculate_distance_matrix exEdges).dist 3 1 ∧
    (calculate_distance_matrix exEdges).dist 2 2 = 0 := by
  have hpos : ∀ e ∈ exEdges, 0 ≤ e.distance := by
    intro e he
    simp only [exEdges, List.mem_cons, List.not_mem_nil, or_false] at he
    rcases he with rfl | rfl <;> norm_num
  exact ⟨(c2_symmetric_zero_diagonal exEdges hpos).1 1 3,
    (c2_symmetric_zero_diagonal exEdges hpos).2 2⟩

/-- C8 counterexample: an EdgeSet with a negative distance does not make
`calculate_distance_matrix` fail — the function is total and simply accumulates
the negative value into the (symmetrised) matrix. -/
theorem c8_counterexample :
    (calculate_distance_matrix [⟨1, 2, -5⟩]).dist 1 2 = -5 := by
  norm_num [calculate_distance_matrix, uniqueIds, accumulateEdges,
    propagateRoutes, propagateStep, matUpdate, List.insertionSort, List.orderedInsert,
    List.dedup_cons_of_mem, List.dedup_cons_of_not_mem]

/-- C8 (amended): `calculate_distance_matrix` performs no input validation and
never fails: it is total on every EdgeSet, negative distances are accumulated
by the same rule as non-negative ones, and the empty EdgeSet yields the empty
matrix (empty index). -/
theorem c8_amended :
    (∀ df : List Edge, (calculate_distance_matrix df).points = uniqueIds df) ∧
    (calculate_distance_matrix []).points = [] ∧
    (calculate_distance_matrix [⟨1, 2, -5⟩]).dist 2 1 = -5 := by
  refine ⟨fun df => rfl, rfl, ?_⟩
  norm_num [calculate_distance_matrix, uniqueIds, accumulateEdges,
    propagateRoutes, propagateStep, matUpdate, List.insertionSort, List.orderedInsert,
    List.dedup_cons_of_mem, List.dedup_cons_of_not_mem]

/-- C5: over a duplicate-free, ascending point index, `unroll_distance_matrix`
returns exactly n(n-1) rows — one per ordered pair (a, b) with a ≠ b, carrying
matrix[a][b], in row-major order over the index — never emits a row with
id_start = id_end, and a 0-or-1-point matrix yields the empty result. -/
theorem c5_unroll (m : DistanceMatrix) (hnd : m.points.Nodup)
    (hsort : m.points.Sorted (· ≤ ·)) :
    (unroll_distance_matrix m).length = m.points.length * (m.points.length - 1) ∧
    (∀ r ∈ unroll_distance_matrix m, r.id_start ≠ r.id_end) ∧
    unroll_distance_matrix m
      = m.points.flatMap (fun s =>
          (m.points.filter (fun e => decide (e ≠ s))).map (fun e => ⟨s, e, m.dist s e⟩)) ∧
    (m.points.length ≤ 1 → unroll_distance_matrix m = []) := by
  have hb := unroll_eq_bind m hnd
  have hlen : (unroll_distance_matrix m).length
      = m.points.length * (m.points.length - 1) := by
    rw [hb, List.length_flatMap]
    have hmap : List.map
        (List.length ∘ fun s =>
          (m.points.filter (fun e => decide (e ≠ s))).map (fun e => (⟨s, e, m.dist s e⟩ : Edge)))
        m.points
        = List.map (fun _ => m.points.length - 1) m.points := by
      apply List.map_congr_left
      intro s hs
      simp only [Function.comp_apply, List.length_map]
      exact length_filter_ne hnd hs
    rw [hmap, List.map_const', List.sum_replicate, smul_eq_mul]
  refine ⟨hlen, ?_, hb, ?_⟩
  · intro r hr
    rw [hb] at hr
    simp only [List.mem_flatMap, List.mem_map, List.mem_filter,
      decide_eq_true_eq] at hr
    obtain ⟨s, _, e, ⟨_, hne⟩, rfl⟩ := hr
    exact fun hc => hne hc.symm
  · intro h1
    have hz : m.points.length * (m.points.length - 1) = 0 := by
      rcases Nat.le_one_iff_eq_zero_or_eq_one.mp h1 with h | h <;> simp [h]
    exact List.eq_nil_of_length_eq_zero (hlen.trans hz)

/-- C5 witness: the unroll contract instantiated on a concrete two-point matrix. -/
theorem c5_unroll_witness :
    (unroll_distance_matrix mtx0).length = mtx0.points.length * (mtx0.points.length - 1) ∧
    (∀ r ∈ unroll_distance_matrix mtx0, r.id_start ≠ r.id_end) ∧
    unroll_distance_matrix mtx0
      = mtx0.points.flatMap (fun s =>
          (mtx0.points.filter (fun e => decide (e ≠ s))).map (fun e => ⟨s, e, mtx0.dist s e⟩)) ∧
    (mtx0.points.length ≤ 1 → unroll_distance_matrix mtx0 = []) :=
  c5_unroll mtx0 (by decide) (by decide)

/-- C4: with at least one row matching the reference id, the threshold filter
returns the sorted, duplicate-free set of id_start values having some row whose
distance lies in the band [mean·0.9, mean·1.1] around the reference mean (the
per-row variant: individual row distances are tested). -/
theorem c4_threshold (df : List Edge) (reference_id : ℤ)
    (h : ∃ r ∈ df, r.id_start = reference_id) :
    List.Sorted (· ≤ ·) (find_ids_within_ten_percentage_threshold df reference_id) ∧
    (find_ids_within_ten_percentage_threshold df reference_id).Nodup ∧
    (∀ x : ℤ, x ∈ find_ids_within_ten_percentage_threshold df reference_id ↔
      ∃ r ∈ df, r.id_start = x ∧
        0.9 * refMean df reference_id ≤ r.distance ∧
        r.distance ≤ 1.1 * refMean df reference_id) := by
  obtain ⟨r0, hr0, hid⟩ := h
  have hmem : r0 ∈ df.filter (fun r => decide (r.id_start = reference_id)) :=
    List.mem_filter.mpr ⟨hr0, by simpa using hid⟩
  have hEmp : (df.filter (fun r => decide (r.id_start = reference_id))).isEmpty = false :=
    List.isEmpty_eq_false.mpr (List.ne_nil_of_mem hmem)
  simp only [find_ids_within_ten_percentage_threshold]
  rw [if_neg (by simp [hEmp])]
  refine ⟨List.sorted_insertionSort _ _,
    ((List.perm_insertionSort _ _).nodup_iff).mpr (List.nodup_dedup _), ?_⟩
  intro x
  rw [(List.perm_insertionSort _ _).mem_iff, List.mem_dedup, List.mem_map]
  constructor
  · rintro ⟨r, hr, rfl⟩
    have hf := List.mem_filter.mp hr
    have hcond := hf.2
    simp only [Bool.and_eq_true, decide_eq_true_eq] at hcond
    refine ⟨r, hf.1, rfl, ?_, ?_⟩
    · unfold refMean
      nlinarith [hcond.1]
    · unfold refMean
      nlinarith [hcond.2]
  · rintro ⟨r, hr, hx, h1, h2⟩
    refine ⟨r, List.mem_filter.mpr ⟨hr, ?_⟩, hx⟩
    simp only [Bool.and_eq_true, decide_eq_true_eq]
    unfold refMean at h1 h2
    constructor <;> nlinarith [h1, h2]

/-- C4 witness: the threshold-filter contract instantiated at reference id 1 on
concrete rows; in particular id 3 is returned because its row distance 10 lies
in the band around the reference mean 10. -/
theorem c4_threshold_witness :
    List.Sorted (· ≤ ·) (find_ids_within_ten_percentage_threshold exRows 1) ∧
    (find_ids_within_ten_percentage_threshold exRows 1).Nodup ∧
    (3 ∈ find_ids_within_ten_percentage_threshold exRows 1 ↔
      ∃ r ∈ exRows, r.id_start = 3 ∧
        0.9 * refMean exRows 1 ≤ r.distance ∧
        r.distance ≤ 1.1 * refMean exRows 1) := by
  have H := c4_threshold exRows 1 ⟨⟨1, 2, 10⟩, by simp [exRows], rfl⟩
  exact ⟨H.1, H.2.1, H.2.2 3⟩

/-- C7 counterexample: a reference id with zero matching rows does not make
`find_ids_within_ten_percentage_threshold` fail — the NaN bounds exclude every
row and the function returns the empty result. -/
theorem c7_counterexample :
    find_ids_within_ten_percentage_threshold [⟨1, 2, 10⟩] 99 = [] := by
  norm_num [find_ids_within_ten_percentage_threshold]

/-- C7 (amended): when the reference id matches no row, the mean is NaN, every
band comparison is False, and the filter returns the empty result instead of
failing. -/
theorem c7_amended (df : List Edge) (reference_id : ℤ)
    (h : df.filter (fun r => decide (r.id_start = reference_id)) = []) :
    find_ids_within_ten_percentage_threshold df reference_id = [] := by
  simp only [find_ids_within_ten_percentage_threshold]
  rw [if_pos (by simp [h])]

/-- C7 amended witness: the empty-result behaviour at a concrete absent id. -/
theorem c7_amended_witness :
    find_ids_within_ten_percentage_threshold [⟨5, 6, 1⟩] 42 = [] :=
  c7_amended [⟨5, 6, 1⟩] 42 (by decide)

/-- C6 counterexample: `calculate_toll_rate` does not round — on the row with
distance 1/4 the rv rate is exactly 1.5 · (1/4) = 3/8, which differs from the
1-decimal rounding 0.4 the claim asserts. -/
theorem c6_counterexample :
    getCol (((calculate_toll_rate [exTollRow]).1.headD []) : Row) "rv" = some (3 / 8) ∧
    ¬ (3 / 8 : ℚ) = specRound1 (1.5 * (1 / 4)) := by
  constructor
  · have hd : getCol exTollRow "distance" = some (1 / 4) := by
      simp [exTollRow, getCol]
    have := (tollRateRow_spec exTollRow (1 / 4) hd).2.2.1
    simp only [calculate_toll_rate, List.map_cons, List.map_nil, List.headD_cons]
    rw [this]
    norm_num
  · have hr : specRound1 (1.5 * (1 / 4)) = 2 / 5 := by
      have h1 : (10 : ℚ) * (1.5 * (1 / 4)) = 15 / 4 := by norm_num
      have h2 : round ((15 : ℚ) / 4) = 4 := by
        rw [round_eq]
        norm_num
      unfold specRound1
      rw [h1, h2]
      norm_num
    rw [hr]
    norm_num

/-- C6 (amended): `calculate_toll_rate` maps each row to a rate row whose five
vehicle-class columns carry the exact, unrounded multiples 0.8·d, 1.2·d, 1.5·d,
2.2·d, 3.6·d of the row distance d, and the distance column is dropped from the
output; no rounding is applied. -/
theorem c6_amended :
    (∀ df : List Row, (calculate_toll_rate df).1 = df.map tollRateRow) ∧
    (∀ (row : Row) (d : ℚ), getCol row "distance" = some d →
      getCol (tollRateRow row) "moto" = some (0.8 * d) ∧
      getCol (tollRateRow row) "car" = some (1.2 * d) ∧
      getCol (tollRateRow row) "rv" = some (1.5 * d) ∧
      getCol (tollRateRow row) "bus" = some (2.2 * d) ∧
      getCol (tollRateRow row) "truck" = some (3.6 * d) ∧
      getCol (tollRateRow row) "distance" = none) :=
  ⟨fun _ => rfl, tollRateRow_spec⟩

/-- C6 amended witness: the exact rate columns on the concrete row with
distance 1/4. -/
theorem c6_amended_witness :
    getCol (tollRateRow exTollRow) "moto" = some (0.8 * (1 / 4)) ∧
    getCol (tollRateRow exTollRow) "car" = some (1.2 * (1 / 4)) ∧
    getCol (tollRateRow exTollRow) "rv" = some (1.5 * (1 / 4)) ∧
    getCol (tollRateRow exTollRow) "bus" = some (2.2 * (1 / 4)) ∧
    getCol (tollRateRow exTollRow) "truck" = some (3.6 * (1 / 4)) ∧
    getCol (tollRateRow exTollRow) "distance" = none :=
  c6_amended.2 exTollRow (1 / 4) (by simp [exTollRow, getCol])

/-- C10 counterexample: `calculate_toll_rate` does not leave the frame held by
the caller unchanged — after the call the distance column is gone from the
frame the caller passed in. -/
theorem c10_counterexample :
    ¬ ((calculate_toll_rate exTollFrame).2 = exTollFrame) := by
  intro hEq
  have h1 : getCol (((calculate_toll_rate exTollFrame).2.headD []) : Row) "distance" = none := by
    simp only [calculate_toll_rate, exTollFrame, List.map_cons, List.map_nil, List.headD_cons]
    simp only [tollRateRow]
    exact getCol_dropCol_self _ _
  rw [hEq] at h1
  simp [exTollFrame, getCol] at h1

/-- C10 (amended): the two stages that the claim calls out do mutate their
input: after a `calculate_toll_rate` call the frame held by the caller equals
the returned rate table (distance column dropped from every row), and after a
`time_check` call the frame held by the caller has gained the two parsed
datetime columns. -/
theorem c10_amended :
    (∀ df : List Row, (calculate_toll_rate df).2 = (calculate_toll_rate df).1) ∧
    (∀ df : List Row,
      ((calculate_toll_rate df).2.all (fun r => (getCol r "distance").isNone)) = true) ∧
    (∀ (parse : String → String → Option ℕ) (df : List IntervalRow),
      (time_check parse df).2
        = df.map (fun r => ⟨r, parse r.startDay r.startTime, parse r.endDay r.endTime⟩)) := by
  refine ⟨fun _ => rfl, ?_, fun _ _ => rfl⟩
  intro df
  rw [List.all_eq_true]
  intro r hr
  simp only [calculate_toll_rate, List.mem_map] at hr
  obtain ⟨x, _, rfl⟩ := hr
  simp only [tollRateRow]
  rw [getCol_dropCol_self]
  rfl

/-- C3: for a group of interval records sharing the key `(id, id_2)` (all of
whose records parse), `time_check` reports true for that key iff (a) the latest
end instant minus the earliest start instant spans at least 7 full days, (b)
the minimum time-of-day among start instants is 00:00:00, and (c) the maximum
time-of-day among end instants is 23:59:59. -/
theorem c3_time_check (parse : String → String → Option ℕ) (df : List IntervalRow) (k : ℤ × ℤ)
    (hk : k ∈ df.map (fun r => (r.id, r.id_2)))
    (hp : ∀ r ∈ df, (r.id, r.id_2) = k →
      (parse r.startDay r.startTime).isSome ∧ (parse r.endDay r.endTime).isSome) :
    (seriesGet (time_check parse df).1 k = some true ↔
      ((∃ m M, ((groupRows parse df k).filterMap (·.start_datetime)).min? = some m ∧
               ((groupRows parse df k).filterMap (·.end_datetime)).max? = some M ∧
               sevenDays ≤ (M : ℤ) - (m : ℤ)) ∧
       (((groupRows parse df k).filterMap (·.start_datetime)).map (· % secondsPerDay)).min?
          = some 0 ∧
       (((groupRows parse df k).filterMap (·.end_datetime)).map (· % secondsPerDay)).max?
          = some (secondsPerDay - 1))) := by
  have hmem : k ∈ ((dfAfter parse df).map keyOf).dedup := by
    rw [List.mem_dedup, dfAfter, List.map_map]
    exact hk
  have hks : k ∈ List.insertionSort lexKeyLe ((dfAfter parse df).map keyOf).dedup :=
    (List.perm_insertionSort _ _).mem_iff.mpr hmem
  have hnd : (List.insertionSort lexKeyLe ((dfAfter parse df).map keyOf).dedup).Nodup :=
    ((List.perm_insertionSort _ _).nodup_iff).mpr (List.nodup_dedup _)
  rw [show (time_check parse df).1
      = (List.insertionSort lexKeyLe ((dfAfter parse df).map keyOf).dedup).map
          (fun k => (k, groupVerdict (groupRows parse df k))) from rfl,
    seriesGet_map _ _ _ hnd hks, Option.some_inj]
  exact groupVerdict_eq_true _

/-- C3 witness: the coverage verdict is true for the concrete single-record
group spanning 2023-01-01 00:00:00 through 2023-01-08 23:59:59. -/
theorem c3_time_check_witness :
    seriesGet (time_check parseEx [goodRow]).1 (1, 1) = some true :=
  (c3_time_check parseEx [goodRow] (1, 1) (by decide) (by decide)).mpr
    ⟨⟨0, 691199, by decide, by decide, by decide⟩, by decide, by decide⟩

/-- C9 counterexample: adding a record whose fields fail to parse to a group
that otherwise satisfies the coverage conditions leaves the verdict true — the
parse failure is skipped by the NaT-ignoring aggregation, so `time_check` does
not return false for the group as the claim states. -/
theorem c9_counterexample :
    seriesGet (time_check parseEx [goodRow, badRow]).1 (1, 1) = some true ∧
    ¬ seriesGet (time_check parseEx [goodRow, badRow]).1 (1, 1) = some false := by
  decide

/-- C9 (amended): a record whose day/time fields fail to parse is coerced to
missing values and silently ignored by the per-group aggregation — the verdict
of the enlarged group equals the verdict without the record — and a group in
which no start instant parses gets verdict false; `time_check` is total, so it
never raises. -/
theorem c9_amended :
    (∀ (g : List IntervalRowAfter) (r : IntervalRowAfter),
      r.start_datetime = none → r.end_datetime = none →
      groupVerdict (g ++ [r]) = groupVerdict g) ∧
    (∀ g : List IntervalRowAfter,
      g.filterMap (·.start_datetime) = [] → groupVerdict g = false) := by
  constructor
  · intro g r hs he
    unfold groupVerdict
    rw [List.filterMap_append, List.filterMap_append]
    simp [hs, he]
  · intro g hg
    unfold groupVerdict
    rw [hg]
    simp

/-- C9 amended witness: the absorption properties at a concrete unparsed record. -/
theorem c9_amended_witness :
    groupVerdict ([] ++ [noneRow]) = groupVerdict [] ∧ groupVerdict [noneRow] = false :=
  ⟨c9_amended.1 [] noneRow rfl rfl, c9_amended.2 [noneRow] rfl⟩
